import Mathlib

/-!
Shallow embedding of the c-wiren/synth-js synthesizer core
(src/unnamed/part_001: the `Synth` class, its preset validation and
application, preset export, and the note/voice allocator), with the JS
`number` type embedded as the real numbers.

Audio-graph objects (GainNode, ConstantSourceNode, ...) are represented by
the scalar control values the source reads and writes on them
(`.value` / `.offset.value` / `.gain.value`); graph connect/disconnect calls
and automation-ramp intermediate values are not part of the state, only the
values the control code sets.  The JS `Map` of live notes is embedded as an
insertion-ordered association list, matching JS `Map` iteration order.
-/

namespace SynthJS

/-! ### Enums (src/unnamed/part_003: types.ts) -/

inductive Waveform
  | Sawtooth
  | Square
  | Sine
deriving DecidableEq, Repr

inductive Mode
  | Poly
  | Mono
  | Legato
deriving DecidableEq, Repr

/-- ADSR envelope settings (types.ts): attack/decay/release in seconds,
sustain in 0-1, the three curve shapes as reals. -/
structure ADSR where
  attack : ℝ
  decay : ℝ
  sustain : ℝ
  release : ℝ
  attackShape : ℝ
  decayShape : ℝ
  releaseShape : ℝ

/-- The pair `this.envelopes` of the Synth: amplitude and filter envelope. -/
structure Envelopes where
  amplitude : ADSR
  filter : ADSR

/-! ### Scalar conversion helpers (part_001 lines 39-99 and 159-171) -/

/-- Convert decibels to a gain multiplier: `Math.pow(10, value / 20)`. -/
noncomputable def dBToGain (value : ℝ) : ℝ := (10 : ℝ) ^ (value / 20)

/-- Convert gain multiplier to decibels: `20 * Math.log10(value)`. -/
noncomputable def gainTodB (value : ℝ) : ℝ := 20 * Real.logb 10 value

/-- Map a normalized resonance in 0-1 to a filter Q: `-6 + resonance * 26`. -/
def resonanceToQ (resonance : ℝ) : ℝ := -6 + resonance * 26

/-- Inverse map from filter Q to normalized resonance: `(Q + 6) / 26`. -/
noncomputable def QToResonance (Q : ℝ) : ℝ := (Q + 6) / 26

/-- Unison loudness compensation (part_001 lines 76-79):
`1 - strength + strength / Math.sqrt(Math.max(unison - 1, 1))`
with `strength = 0.7`. -/
noncomputable def calculateUnisonGain (unison : ℝ) : ℝ :=
  1 - 0.7 + 0.7 / Real.sqrt (max (unison - 1) 1)

/-- `Math.pow(2, semitones / 12)` (part_001 line 159). -/
noncomputable def semitonesToMultiplier (semitones : ℝ) : ℝ :=
  (2 : ℝ) ^ (semitones / 12)

/-- `tuning * Math.pow(2, (noteNumber - 69) / 12)` (part_001 line 163). -/
noncomputable def noteNumberToFrequency (noteNumber : ℤ) (tuning : ℝ) : ℝ :=
  tuning * (2 : ℝ) ^ (((noteNumber : ℝ) - 69) / 12)

/-- MIDI note number to a 0-1 filter value, pivot at middle C (line 168). -/
noncomputable def noteNumberToFilterValue (noteNumber : ℤ) : ℝ :=
  (((noteNumber : ℝ) - 60) / 12) * Real.log 2 / Real.log 1000

/-- Envelope curve value at a normalized time (part_001 lines 87-90):
linear below the `1e-6` shape threshold, else
`(e^(shape*time) - 1) / (e^shape - 1)`. -/
noncomputable def calculateEnvelopeCurve (time shape : ℝ) : ℝ :=
  if |shape| < 1 / 1000000 then time
  else (Real.exp (shape * time) - 1) / (Real.exp shape - 1)

/-- The 9-sample envelope curve array (part_001 lines 92-99):
`curve[i] = start + calculateEnvelopeCurve(i / (length - 1), shape) * (end - start)`
with `length = 9`. -/
noncomputable def calculateEnvelopeCurveArray (start endValue shape : ℝ) : List ℝ :=
  (List.range 9).map fun i : ℕ =>
    start + calculateEnvelopeCurve ((i : ℝ) / 8) shape * (endValue - start)

/-- Per-voice stereo pan position used in noteOn (part_001 line 578):
`settings.unison > 1 ? i / (settings.unison - 1) * 2 - 1 : 0`. -/
noncomputable def panPosition (unison : ℕ) (i : ℕ) : ℝ :=
  if 1 < unison then (i : ℝ) / ((unison : ℝ) - 1) * 2 - 1 else 0

/-- The pan positions of all `unison` voices, in voice order (the loop
`for i = 0; i < settings.unison; i++`). -/
noncomputable def panPositions (unison : ℕ) : List ℝ :=
  (List.range unison).map (panPosition unison)

/-! ### Preset and partial preset (types.ts `Preset`, `PartialPreset`) -/

/-- One entry of `Preset.oscillators`: `volume` is in dB.  The source field
`on` is a Lean keyword, embedded here as `isOn`. -/
structure OscPreset where
  isOn : Bool
  volume : ℝ
  semitones : ℝ
  fine : ℝ
  unison : ℝ
  detune : ℝ
  waveform : Waveform
  pwm : ℝ

/-- `Preset.filter`: all four values normalized to 0-1. -/
structure FilterPreset where
  cutoff : ℝ
  resonance : ℝ
  envelope : ℝ
  keyboard : ℝ

/-- `Preset.fx.chorus` (the chorus mode is the number 0 or 1). -/
structure ChorusPreset where
  amount : ℝ
  mode : ℝ

/-- `Preset.fx`. -/
structure FxPreset where
  chorus : ChorusPreset
  softClip : Bool

/-- A complete preset snapshot (types.ts `Preset`). -/
structure Preset where
  envelopes : Envelopes
  oscillators : List OscPreset
  filter : FilterPreset
  glide : ℝ
  glide_always : Bool
  mode : Mode
  lfoFrequency : ℝ
  lfoPitch : ℝ
  fx : FxPreset
  masterVolume : ℝ

/-- `DeepPartial` of ADSR: a JS object where each key may be absent. -/
structure PartialADSR where
  attack? : Option ℝ := none
  decay? : Option ℝ := none
  sustain? : Option ℝ := none
  release? : Option ℝ := none
  attackShape? : Option ℝ := none
  decayShape? : Option ℝ := none
  releaseShape? : Option ℝ := none

structure PartialEnvelopes where
  amplitude? : Option PartialADSR := none
  filter? : Option PartialADSR := none

structure PartialOsc where
  on? : Option Bool := none
  volume? : Option ℝ := none
  semitones? : Option ℝ := none
  fine? : Option ℝ := none
  unison? : Option ℝ := none
  detune? : Option ℝ := none
  waveform? : Option Waveform := none
  pwm? : Option ℝ := none

structure PartialFilter where
  cutoff? : Option ℝ := none
  resonance? : Option ℝ := none
  envelope? : Option ℝ := none
  keyboard? : Option ℝ := none

structure PartialChorus where
  amount? : Option ℝ := none
  mode? : Option ℝ := none

structure PartialFx where
  chorus? : Option PartialChorus := none
  softClip? : Option Bool := none

/-- `DeepPartial<Preset>` (types.ts `PartialPreset`): entries of the
oscillator array may themselves be absent (`preset.oscillators[i]` can be
undefined, line 340). -/
structure PartialPreset where
  envelopes? : Option PartialEnvelopes := none
  oscillators? : Option (List (Option PartialOsc)) := none
  filter? : Option PartialFilter := none
  glide? : Option ℝ := none
  glide_always? : Option Bool := none
  mode? : Option Mode := none
  lfoFrequency? : Option ℝ := none
  lfoPitch? : Option ℝ := none
  fx? : Option PartialFx := none
  masterVolume? : Option ℝ := none

/-- A full ADSR viewed as a partial one with every key present. -/
def ADSR.toPartial (e : ADSR) : PartialADSR :=
  { attack? := some e.attack, decay? := some e.decay, sustain? := some e.sustain,
    release? := some e.release, attackShape? := some e.attackShape,
    decayShape? := some e.decayShape, releaseShape? := some e.releaseShape }

def Envelopes.toPartial (e : Envelopes) : PartialEnvelopes :=
  { amplitude? := some e.amplitude.toPartial, filter? := some e.filter.toPartial }

def OscPreset.toPartial (o : OscPreset) : PartialOsc :=
  { on? := some o.isOn, volume? := some o.volume, semitones? := some o.semitones,
    fine? := some o.fine, unison? := some o.unison, detune? := some o.detune,
    waveform? := some o.waveform, pwm? := some o.pwm }

def FilterPreset.toPartial (f : FilterPreset) : PartialFilter :=
  { cutoff? := some f.cutoff, resonance? := some f.resonance,
    envelope? := some f.envelope, keyboard? := some f.keyboard }

def FxPreset.toPartial (f : FxPreset) : PartialFx :=
  { chorus? := some { amount? := some f.chorus.amount, mode? := some f.chorus.mode },
    softClip? := some f.softClip }

/-- A full preset passed where a `PartialPreset` is expected (TS structural
typing): every key present, nested objects fully present. -/
def Preset.toPartial (p : Preset) : PartialPreset :=
  { envelopes? := some p.envelopes.toPartial,
    oscillators? := some (p.oscillators.map fun o => some o.toPartial),
    filter? := some p.filter.toPartial,
    glide? := some p.glide, glide_always? := some p.glide_always,
    mode? := some p.mode, lfoFrequency? := some p.lfoFrequency,
    lfoPitch? := some p.lfoPitch, fx? := some p.fx.toPartial,
    masterVolume? := some p.masterVolume }

/-- The JS shallow spread `{...d, ...p}` of `applyPreset` (part_001 line
444): each TOP-LEVEL key is taken from `p` when present there, else from the
full default `d`; nested objects of `p` are taken wholesale, never merged
with `d`'s. -/
def mergePreset (d : Preset) (p : PartialPreset) : PartialPreset :=
  { envelopes? := some (p.envelopes?.getD d.envelopes.toPartial),
    oscillators? := some (p.oscillators?.getD (d.oscillators.map fun o => some o.toPartial)),
    filter? := some (p.filter?.getD d.filter.toPartial),
    glide? := some (p.glide?.getD d.glide),
    glide_always? := some (p.glide_always?.getD d.glide_always),
    mode? := some (p.mode?.getD d.mode),
    lfoFrequency? := some (p.lfoFrequency?.getD d.lfoFrequency),
    lfoPitch? := some (p.lfoPitch?.getD d.lfoPitch),
    fx? := some (p.fx?.getD d.fx.toPartial),
    masterVolume? := some (p.masterVolume?.getD d.masterVolume) }

/-- `Synth.defaultPreset` (part_001 lines 217-245) as written in the
source: the factory values the static singleton starts with.  At run time
the singleton's envelope objects are aliased into the live state and drift
with it — see `liveDefaultPreset`. -/
noncomputable def defaultPreset : Preset :=
  { envelopes :=
      { amplitude := { attack := 0.001, decay := 5, sustain := 1, release := 0.2,
                       attackShape := 0, decayShape := -2, releaseShape := -5 },
        filter := { attack := 0, decay := 5, sustain := 1, release := 1,
                    attackShape := 0, decayShape := -2, releaseShape := -5 } },
    oscillators :=
      [ { isOn := true, volume := 0, semitones := 0, fine := 0, unison := 1,
          detune := 0, waveform := Waveform.Sawtooth, pwm := 0 },
        { isOn := false, volume := 0, semitones := 0, fine := 0, unison := 1,
          detune := 0, waveform := Waveform.Sawtooth, pwm := 0 } ],
    filter := { cutoff := 1, resonance := 0, envelope := 0, keyboard := 0 },
    glide := 0, glide_always := false, mode := Mode.Poly,
    lfoFrequency := 5, lfoPitch := 0,
    fx := { chorus := { amount := 0, mode := 0 }, softClip := true },
    masterVolume := -12 }

/-! ### validatePreset (part_001 lines 13-37)

`assert(cond, msg)` throws `msg` when the condition fails; the validator is
embedded as the first thrown message, `none` when every assert passes.
`?? 0` / `?? 1` defaults are `Option.getD`. -/

noncomputable def validateEnvelope (env : PartialADSR) : Option String :=
  if 0 ≤ env.attack?.getD 0 then
    if 0 ≤ env.decay?.getD 0 then
      if 0 ≤ env.sustain?.getD 0 ∧ env.sustain?.getD 0 ≤ 1 then
        if 0 ≤ env.release?.getD 0 then none
        else some "Release must be non-negative"
      else some "Sustain must be between 0 and 1"
    else some "Decay must be non-negative"
  else some "Attack must be non-negative"

noncomputable def validateOscillators : List (Option PartialOsc) → Option String
  | [] => none
  | none :: rest => validateOscillators rest
  | some o :: rest =>
      if 1 ≤ o.unison?.getD 1 then validateOscillators rest
      else some "Unison must be at least 1"

noncomputable def validateFilter (f? : Option PartialFilter) : Option String :=
  let cutoff := (f?.bind (·.cutoff?)).getD 0
  let envelope := (f?.bind (·.envelope?)).getD 0
  let keyboard := (f?.bind (·.keyboard?)).getD 0
  if 0 ≤ cutoff ∧ cutoff ≤ 1 then
    if 0 ≤ envelope ∧ envelope ≤ 1 then
      if 0 ≤ keyboard ∧ keyboard ≤ 1 then none
      else some "Keyboard tracking must be between 0 and 1"
    else some "Filter envelope must be between 0 and 1"
  else some "Cutoff must be between 0 and 1"

noncomputable def validateGlideLfo (p : PartialPreset) : Option String :=
  if 0 ≤ p.glide?.getD 0 then
    if 0 ≤ p.lfoFrequency?.getD 0 then
      if 0 ≤ p.lfoPitch?.getD 0 ∧ p.lfoPitch?.getD 0 ≤ 1 then none
      else some "LFO pitch must be between 0 and 1"
    else some "LFO frequency must be non-negative"
  else some "Glide must be non-negative"

noncomputable def validateChorus (c? : Option PartialChorus) : Option String :=
  match c? with
  | none => none
  | some c =>
      if 0 ≤ c.amount?.getD 0 then
        if c.mode?.getD 0 = 0 ∨ c.mode?.getD 0 = 1 then none
        else some "Chorus mode must be 0 or 1"
      else some "Chorus amount must be non-negative"

/-- The whole of `validatePreset`, in the source's assert order. -/
noncomputable def validatePreset (p : PartialPreset) : Option String :=
  ((p.envelopes?.bind (·.amplitude?)).elim none validateEnvelope) <|>
  ((p.envelopes?.bind (·.filter?)).elim none validateEnvelope) <|>
  validateOscillators (p.oscillators?.getD []) <|>
  validateFilter p.filter? <|>
  validateGlideLfo p <|>
  validateChorus (p.fx?.bind (·.chorus?))


/-! ### Live synth state

Each audio node the control code reads or writes is embedded as the scalar
it carries: `compound_gain`/`pitch` are the `ConstantSourceNode.offset.value`
of the two per-slot buses, the filter settings are the four filter bus
offsets (resonance in Q units, as stored by `applyPartialPreset`),
`lfoFrequency`/`lfoPitch` are `lfo.frequency.value`/`lfoGain.gain.value`,
`chorusGain`/`chorusMode` the chorus amount bus and mode, and `masterGain`
is `masterGain.gain.value`. -/

/-- Live per-slot oscillator settings (types.ts `OscillatorSettings`).
The source field `on` is a Lean keyword, embedded as `isOn`. -/
structure OscillatorSettings where
  isOn : Bool
  gain : ℝ
  compound_gain : ℝ
  semitones : ℝ
  fine : ℝ
  unison : ℝ
  detune : ℝ
  pitch : ℝ
  waveform : Waveform
  pwm : ℝ

/-- The four filter buses (`this.filterSettings`); `resonance` holds Q. -/
structure FilterSettings where
  cutoff : ℝ
  resonance : ℝ
  envelope : ℝ
  keyboard : ℝ

/-- The preset-level live state of the Synth: everything `applyPartialPreset`
writes and `exportPreset` reads. -/
structure Settings where
  envelopes : Envelopes
  oscillatorSettings : List OscillatorSettings
  filterSettings : FilterSettings
  glide : ℝ
  glide_always : Bool
  mode : Mode
  lfoFrequency : ℝ
  lfoPitch : ℝ
  chorusGain : ℝ
  chorusMode : ℝ
  softClipEnabled : Bool
  masterVolume : ℝ
  masterGain : ℝ

/-- A live Note (types.ts `Note`) at the control level: its MIDI number, the
released flag, the last frequency / keyboard-tracking targets the control
code set (a glide ramp and an immediate set share the same final target),
whether any oscillator voices exist (each enabled slot contributes at least
one voice since `unison >= 1`), and whether the one-shot natural-end
`onended` callback is armed.  `uid` models JS object identity. -/
structure NoteModel where
  noteNumber : ℤ
  released : Bool
  uid : ℕ
  frequencyValue : ℝ
  keyboardValue : ℝ
  hasVoices : Bool
  onended : Bool

/-- The live-notes table `this.notes : Map<number, Note>`, embedded as an
insertion-ordered association list (JS `Map` iteration order). -/
abbrev NoteMap := List (ℤ × NoteModel)

/-- `Map.get`. -/
def mapGet (m : NoteMap) (k : ℤ) : Option NoteModel :=
  (m.find? fun kv => kv.1 = k).map fun kv => kv.2

/-- `Map.set`: replaces the entry in place when the key exists, else appends. -/
def mapSet (m : NoteMap) (k : ℤ) (v : NoteModel) : NoteMap :=
  if m.any fun kv => kv.1 = k then
    m.map fun kv => if kv.1 = k then (k, v) else kv
  else m ++ [(k, v)]

/-- `Map.delete`. -/
def mapDelete (m : NoteMap) (k : ℤ) : NoteMap :=
  m.filter fun kv => kv.1 ≠ k

/-- `Map.values()`, in insertion order. -/
def mapValues (m : NoteMap) : List NoteModel := m.map fun kv => kv.2

/-- The whole mutable state of a `Synth` instance. -/
structure SynthState where
  settings : Settings
  notes : NoteMap
  keyStack : List ℤ
  previousNoteNumber : Option ℤ
  nextUid : ℕ
  tuning : ℝ

/-- `noteAbort` (part_001 lines 721-758): when a Note exists under the
key, stop and disconnect all of its nodes (graph-only effects) and delete it
from the live-notes table; otherwise do nothing.  (The `onended` reset on
line 726 nulls the callback of a note that is then deleted.) -/
def noteAbort (s : SynthState) (noteNumber : ℤ) : SynthState :=
  match mapGet s.notes noteNumber with
  | none => s
  | some _ => { s with notes := mapDelete s.notes noteNumber }

/-! ### applyPartialPreset (part_001 lines 327-440)

The source mutates field groups in sequence behind the one up-front
validation; the groups touch disjoint state fields, with the two documented
in-group data dependencies kept: the pitch bus recomputation uses the
updated `semitones`/`fine` and the compound-gain recomputation uses the
updated `gain`/`unison`. -/

/-- The per-slot update of lines 340-377. -/
noncomputable def applyOscPatch (st : OscillatorSettings) (p : PartialOsc) :
    OscillatorSettings :=
  let semitones := p.semitones?.getD st.semitones
  let fine := p.fine?.getD st.fine
  let unison := p.unison?.getD st.unison
  let gain := (p.volume?.map dBToGain).getD st.gain
  { isOn := p.on?.getD st.isOn
    gain := gain
    compound_gain :=
      if p.unison?.isSome || p.volume?.isSome then
        gain * calculateUnisonGain unison
      else st.compound_gain
    semitones := semitones
    fine := fine
    unison := unison
    detune := p.detune?.getD st.detune
    pitch :=
      if p.semitones?.isSome || p.fine?.isSome then
        semitonesToMultiplier (semitones + fine / 100)
      else st.pitch
    waveform := p.waveform?.getD st.waveform
    pwm := p.pwm?.getD st.pwm }

/-- The loop of lines 339-378: index `i` of the patch array updates slot `i`
of `this.oscillatorSettings`; absent entries are skipped. -/
noncomputable def applyOscList :
    List OscillatorSettings → List (Option PartialOsc) → List OscillatorSettings
  | sts, [] => sts
  | [], _ => []
  | st :: sts, none :: ps => st :: applyOscList sts ps
  | st :: sts, some p :: ps => applyOscPatch st p :: applyOscList sts ps

/-- Every settings write of `applyPartialPreset` after validation (lines
330-439).  The quirk on line 424 is kept: the `softClip` toggle sits inside
the `if (preset.fx.chorus)` block, so it only applies when a chorus object
is present in the patch. -/
noncomputable def applySettings (p : PartialPreset) (st : Settings) : Settings :=
  { envelopes :=
      { amplitude := ((p.envelopes?.bind (·.amplitude?)).elim st.envelopes.amplitude
          fun e => { attack := e.attack?.getD st.envelopes.amplitude.attack,
                     decay := e.decay?.getD st.envelopes.amplitude.decay,
                     sustain := e.sustain?.getD st.envelopes.amplitude.sustain,
                     release := e.release?.getD st.envelopes.amplitude.release,
                     attackShape := e.attackShape?.getD st.envelopes.amplitude.attackShape,
                     decayShape := e.decayShape?.getD st.envelopes.amplitude.decayShape,
                     releaseShape := e.releaseShape?.getD st.envelopes.amplitude.releaseShape }),
        filter := ((p.envelopes?.bind (·.filter?)).elim st.envelopes.filter
          fun e => { attack := e.attack?.getD st.envelopes.filter.attack,
                     decay := e.decay?.getD st.envelopes.filter.decay,
                     sustain := e.sustain?.getD st.envelopes.filter.sustain,
                     release := e.release?.getD st.envelopes.filter.release,
                     attackShape := e.attackShape?.getD st.envelopes.filter.attackShape,
                     decayShape := e.decayShape?.getD st.envelopes.filter.decayShape,
                     releaseShape := e.releaseShape?.getD st.envelopes.filter.releaseShape }) }
    oscillatorSettings :=
      match p.oscillators? with
      | some ps => applyOscList st.oscillatorSettings ps
      | none => st.oscillatorSettings
    filterSettings :=
      match p.filter? with
      | some f =>
          { cutoff := f.cutoff?.getD st.filterSettings.cutoff,
            resonance := (f.resonance?.map resonanceToQ).getD st.filterSettings.resonance,
            envelope := f.envelope?.getD st.filterSettings.envelope,
            keyboard := f.keyboard?.getD st.filterSettings.keyboard }
      | none => st.filterSettings
    glide := p.glide?.getD st.glide
    glide_always := p.glide_always?.getD st.glide_always
    mode := p.mode?.getD st.mode
    lfoFrequency := p.lfoFrequency?.getD st.lfoFrequency
    lfoPitch := p.lfoPitch?.getD st.lfoPitch
    chorusGain := ((p.fx?.bind (·.chorus?)).bind (·.amount?)).getD st.chorusGain
    chorusMode := ((p.fx?.bind (·.chorus?)).bind (·.mode?)).getD st.chorusMode
    softClipEnabled :=
      match p.fx?.bind (·.chorus?) with
      | some _ => ((p.fx?.bind (·.softClip?))).getD st.softClipEnabled
      | none => st.softClipEnabled
    masterVolume := p.masterVolume?.getD st.masterVolume
    masterGain := (p.masterVolume?.map dBToGain).getD st.masterGain }

/-- The mode-switch sweep of lines 400-409: when the patch sets a non-Poly
mode, every live note whose number differs from the top of the key stack is
aborted (with an empty stack, every live note). -/
def abortStrayNotes (s : SynthState) : SynthState :=
  let top := s.keyStack.getLast?
  ((mapValues s.notes).filterMap fun nt =>
      if some nt.noteNumber = top then none else some nt.noteNumber).foldl
    noteAbort s

/-- The state change of `applyPartialPreset` once validation has passed:
the settings writes, followed by the mode-switch sweep when the patch sets
a non-Poly mode. -/
noncomputable def applyPresetFields (p : PartialPreset) (s : SynthState) : SynthState :=
  match p.mode? with
  | some m =>
      if m ≠ Mode.Poly then abortStrayNotes { s with settings := applySettings p s.settings }
      else { s with settings := applySettings p s.settings }
  | none => { s with settings := applySettings p s.settings }

/-- `applyPartialPreset` (lines 327-440): validate first, then apply; a
validation failure throws before any mutation. -/
noncomputable def applyPartialPreset (p : PartialPreset) (s : SynthState) :
    Except String SynthState :=
  match validatePreset p with
  | some msg => Except.error msg
  | none => Except.ok (applyPresetFields p s)

/-- The default preset as `applyPreset` actually reads it at run time.
The constructor aliases the static singleton's envelope objects into the
live state (`this.envelopes = Synth.defaultPreset.envelopes`, line 262) and
`applyPartialPreset`'s `Object.assign` (lines 332 and 335) mutates those
shared objects in place, so at every reachable state the singleton's
`envelopes` hold the LIVE envelope values.  No other field of the singleton
is ever written; the rest keeps its factory value. -/
noncomputable def liveDefaultPreset (st : Settings) : Preset :=
  { defaultPreset with envelopes := st.envelopes }

/-- `applyPreset` (lines 442-445): `applyPartialPreset` over the shallow
spread `{...Synth.defaultPreset, ...preset}`, with the singleton's
envelopes drifted to the live values (see `liveDefaultPreset`). -/
noncomputable def applyPreset (p : PartialPreset) (s : SynthState) :
    Except String SynthState :=
  applyPartialPreset (mergePreset (liveDefaultPreset s.settings) p) s

/-- The per-slot read-back of `exportPreset` (lines 454-463): the exported
`volume` reads the compound-gain bus (gain times unison compensation). -/
noncomputable def exportOsc (o : OscillatorSettings) : OscPreset :=
  { isOn := o.isOn, volume := gainTodB o.compound_gain,
    semitones := o.semitones, fine := o.fine, unison := o.unison,
    detune := o.detune, waveform := o.waveform, pwm := o.pwm }

/-- `exportPreset` (lines 448-484).  Note that the exported oscillator
`volume` reads the compound-gain bus (gain times unison compensation), and
the exported `resonance` maps the Q bus back through `QToResonance`. -/
noncomputable def exportPreset (st : Settings) : Preset :=
  { envelopes := { amplitude := st.envelopes.amplitude, filter := st.envelopes.filter }
    oscillators := st.oscillatorSettings.map exportOsc
    filter := { cutoff := st.filterSettings.cutoff,
                resonance := QToResonance st.filterSettings.resonance,
                envelope := st.filterSettings.envelope,
                keyboard := st.filterSettings.keyboard }
    glide := st.glide
    glide_always := st.glide_always
    mode := st.mode
    lfoFrequency := st.lfoFrequency
    lfoPitch := st.lfoPitch
    fx := { chorus := { amount := st.chorusGain, mode := st.chorusMode },
            softClip := st.softClipEnabled }
    masterVolume := st.masterVolume }

/-- `defaultOscillatorSettings` (part_001 lines 108-110). -/
def defaultOscillatorSettings (isOn : Bool) : OscillatorSettings :=
  { isOn := isOn, gain := 1, compound_gain := 1, semitones := 0, fine := 0,
    unison := 1, detune := 0, pitch := 1, waveform := Waveform.Sawtooth, pwm := 0 }

instance : Inhabited OscillatorSettings := ⟨defaultOscillatorSettings true⟩

/-- The constructor's state (part_001 lines 257-317). -/
noncomputable def initialState : SynthState :=
  { settings :=
      { envelopes := defaultPreset.envelopes
        oscillatorSettings := [defaultOscillatorSettings true, defaultOscillatorSettings false]
        filterSettings :=
          { cutoff := defaultPreset.filter.cutoff,
            resonance := resonanceToQ defaultPreset.filter.resonance,
            envelope := defaultPreset.filter.envelope,
            keyboard := defaultPreset.filter.keyboard }
        glide := 0
        glide_always := false
        mode := defaultPreset.mode
        lfoFrequency := 5
        lfoPitch := 0
        chorusGain := 0
        chorusMode := 0
        softClipEnabled := true
        masterVolume := -12
        masterGain := dBToGain (-12) }
    notes := []
    keyStack := []
    previousNoteNumber := none
    nextUid := 0
    tuning := 440 }


/-! ### The note state machine (part_001 lines 487-766) -/

/-- The Note built by `noteOn` (lines 540-640): fresh object identity, not
released, frequency and keyboard-tracking targets from the note number (a
glide ramp from the previous note ends at the same targets), and oscillator
voices for every enabled slot. -/
noncomputable def mkNewNote (s : SynthState) (noteNumber : ℤ) : NoteModel :=
  { noteNumber := noteNumber
    released := false
    uid := s.nextUid
    frequencyValue := noteNumberToFrequency noteNumber s.tuning
    keyboardValue := noteNumberToFilterValue noteNumber
    hasVoices := s.settings.oscillatorSettings.any fun o => o.isOn
    onended := false }

/-- The `for (let note of this.notes.values())` loop of `noteOnLegato`
(lines 490-496): the first not-yet-released note is kept, every other note
is aborted as the loop passes it. -/
def legatoScan (s : SynthState) (found : Option NoteModel) :
    List NoteModel → Option NoteModel × SynthState
  | [] => (found, s)
  | nt :: rest =>
      if found.isNone ∧ nt.released = false then legatoScan s (some nt) rest
      else legatoScan (noteAbort s nt.noteNumber) found rest

/-- `noteOnLegato` (lines 487-522).  Returns the JS boolean together with
the state: `false` when there was no note to retune (any released notes seen
were still aborted).  On success the found note is retuned in place —
frequency and keyboard-tracking are set (or ramped over `glide`) to the new
note's targets — its `noteNumber` is rewritten, the table is updated with
`set(noteNumber, note)` and then `delete(previousNoteNumber)`, in that
order, and `this.previousNoteNumber` becomes the new number. -/
noncomputable def noteOnLegato (s : SynthState) (noteNumber : ℤ) :
    Bool × SynthState :=
  if s.notes.isEmpty then (false, s)
  else
    match legatoScan s none (mapValues s.notes) with
    | (none, s1) => (false, s1)
    | (some note, s1) =>
        let retuned : NoteModel :=
          { note with
            noteNumber := noteNumber
            frequencyValue := noteNumberToFrequency noteNumber s1.tuning
            keyboardValue := noteNumberToFilterValue noteNumber }
        let notes1 := mapSet s1.notes noteNumber retuned
        let notes2 := mapDelete notes1 note.noteNumber
        (true, { s1 with notes := notes2, previousNoteNumber := some noteNumber })

/-- The voice-stealing policy of `noteOn` (lines 632-638): Poly aborts any
prior note under the same number, Mono aborts every note, Legato (reached
only when the legato path found nothing to retune) aborts none here. -/
def voiceSteal (s : SynthState) (noteNumber : ℤ) : SynthState :=
  if s.settings.mode = Mode.Poly then noteAbort s noteNumber
  else if s.settings.mode = Mode.Mono then
    ((mapValues s.notes).map fun nt => nt.noteNumber).foldl noteAbort s
  else s

/-- The voice-allocation tail of `noteOn` (lines 629-640): steal voices per
mode, then register the new Note and set `previousNoteNumber`. -/
noncomputable def noteOnCreate (s : SynthState) (noteNumber : ℤ) : SynthState :=
  { voiceSteal s noteNumber with
    previousNoteNumber := some noteNumber
    notes := mapSet (voiceSteal s noteNumber).notes noteNumber (mkNewNote s noteNumber)
    nextUid := (voiceSteal s noteNumber).nextUid + 1 }

/-- Lines 534-535: remove any prior occurrence of the key from the key
stack and push it on top. -/
def withKeyPressed (s : SynthState) (noteNumber : ℤ) : SynthState :=
  { s with keyStack := (s.keyStack.filter fun key => key ≠ noteNumber) ++ [noteNumber] }

/-- The body of `noteOn` for a non-zero velocity (lines 534-640): move the
key to the top of the key stack, try the legato path, otherwise build and
register a new Note. -/
noncomputable def noteOnCore (s : SynthState) (noteNumber : ℤ) : SynthState :=
  if (withKeyPressed s noteNumber).settings.mode = Mode.Legato then
    match noteOnLegato (withKeyPressed s noteNumber) noteNumber with
    | (true, s2) => s2
    | (false, s2) => noteOnCreate s2 noteNumber
  else noteOnCreate (withKeyPressed s noteNumber) noteNumber

/-- Release automation of one gain parameter: a scheduled 9-sample value
curve or an immediate set. -/
inductive GainAutomation
  | curve (values : List ℝ) (startTime duration : ℝ)
  | setValue (value atTime : ℝ)

/-- What `noteOff` schedules on a released Note (lines 662-713): the
amplitude-gain automation, the filter-envelope automation, and the
oscillator stop time.  (The Firefox fallback branches schedule the same
curves on a freshly allocated replacement node.) -/
structure NoteOffSchedule where
  amp : GainAutomation
  filterEnv : GainAutomation
  stopTime : ℝ

/-- The automation `noteOff` emits, as a function of the envelopes and the
current amplitude-gain and filter-envelope values it reads back (lines
662-713).  Transcribed from the source: the amplitude release curve is
built with `this.envelopes.filter.releaseShape` (line 667), the filter
release curve likewise (line 688), and every voice stops at
`now + this.envelopes.amplitude.release` (line 711). -/
noncomputable def noteOffSchedule (envelopes : Envelopes)
    (currentGain currentEnvelope now : ℝ) : NoteOffSchedule :=
  { amp :=
      if 0 < envelopes.amplitude.release then
        GainAutomation.curve
          (calculateEnvelopeCurveArray currentGain 0 envelopes.filter.releaseShape)
          now envelopes.amplitude.release
      else GainAutomation.setValue 0 now
    filterEnv :=
      if 0 < envelopes.filter.release then
        GainAutomation.curve
          (calculateEnvelopeCurveArray currentEnvelope 0 envelopes.filter.releaseShape)
          now envelopes.filter.release
      else GainAutomation.setValue 0 now
    stopTime := now + envelopes.amplitude.release }

/-- The state change of `noteOff` (lines 647-714): pop the key; in Legato
(resp. Mono) with the released key current and keys still held, retune
(resp. retrigger) to the new top of the stack; otherwise mark the note
released, clear `previousNoteNumber` unless `glide_always`, and arm the
one-shot natural-end callback when the note has voices.  The release
automation itself is `noteOffSchedule`. -/
noncomputable def noteOff (s : SynthState) (noteNumber : ℤ) : SynthState :=
  let s1 : SynthState := { s with keyStack := s.keyStack.filter fun key => key ≠ noteNumber }
  if s.previousNoteNumber = some noteNumber ∧ s1.keyStack ≠ [] ∧
      s1.settings.mode = Mode.Legato then
    (noteOnLegato s1 (s1.keyStack.getLast?.getD 0)).2
  else if s.previousNoteNumber = some noteNumber ∧ s1.keyStack ≠ [] ∧
      s1.settings.mode = Mode.Mono then
    noteOnCore s1 (s1.keyStack.getLast?.getD 0)
  else
    match mapGet s1.notes noteNumber with
    | none => s1
    | some note =>
        let s2 : SynthState :=
          if s1.previousNoteNumber = some noteNumber ∧ s1.settings.glide_always = false
          then { s1 with previousNoteNumber := none } else s1
        { s2 with
          notes := mapSet s2.notes noteNumber
            { note with released := true, onended := note.hasVoices } }

/-- `noteOn` (lines 529-641): a zero velocity is aliased to `noteOff`.
(The Mono retrigger inside `noteOff` calls `noteOn` with the default
velocity 1, which never re-enters `noteOff`; it is embedded as
`noteOnCore` directly.) -/
noncomputable def noteOn (s : SynthState) (noteNumber : ℤ) (velocity : ℝ) :
    SynthState :=
  if velocity = 0 then noteOff s noteNumber else noteOnCore s noteNumber

/-- `panic` (lines 761-766): clear the key stack and abort every live note. -/
def panic (s : SynthState) : SynthState :=
  let s1 : SynthState := { s with keyStack := [] }
  ((mapValues s1.notes).map fun nt => nt.noteNumber).foldl noteAbort s1


/-! ### General lemmas -/

/-- `dBToGain` inverts `gainTodB` on positive gains. -/
theorem dBToGain_gainTodB {x : ℝ} (hx : 0 < x) : dBToGain (gainTodB x) = x := by
  unfold dBToGain gainTodB
  have h : 20 * Real.logb 10 x / 20 = Real.logb 10 x := by ring
  rw [h]
  exact Real.rpow_logb (by norm_num) (by norm_num) hx

/-- A mapped `List.range` sum as a `Finset.range` sum. -/
theorem list_range_map_sum (f : ℕ → ℝ) (n : ℕ) :
    ((List.range n).map f).sum = ∑ i in Finset.range n, f i := by
  induction n with
  | zero => simp
  | succ n ih =>
      rw [List.range_succ, List.map_append, List.sum_append, Finset.sum_range_succ, ih]
      simp

/-- Element access into the 9-sample curve array. -/
theorem calculateEnvelopeCurveArray_getD (a b sh : ℝ) (i : ℕ) (h : i < 9) :
    (calculateEnvelopeCurveArray a b sh).getD i 0
      = a + calculateEnvelopeCurve ((i : ℝ) / 8) sh * (b - a) := by
  have hlen : i < (calculateEnvelopeCurveArray a b sh).length := by
    simpa [calculateEnvelopeCurveArray] using h
  rw [List.getD_eq_getElem _ _ hlen]
  simp [calculateEnvelopeCurveArray]

/-- The curve through `(0, start)`: the envelope curve vanishes at time 0. -/
theorem calculateEnvelopeCurve_zero (sh : ℝ) : calculateEnvelopeCurve 0 sh = 0 := by
  unfold calculateEnvelopeCurve
  by_cases h : |sh| < 1 / 1000000
  · rw [if_pos h]
  · rw [if_neg h]
    simp

/-- The curve through `(1, end)`: the envelope curve is 1 at time 1. -/
theorem calculateEnvelopeCurve_one (sh : ℝ) : calculateEnvelopeCurve 1 sh = 1 := by
  unfold calculateEnvelopeCurve
  by_cases h : |sh| < 1 / 1000000
  · rw [if_pos h]
  · rw [if_neg h]
    have hsh : sh ≠ 0 := by
      intro h0
      rw [h0] at h
      exact h (by norm_num)
    have hne : Real.exp sh - 1 ≠ 0 := by
      intro h0
      have h1 : Real.exp sh = 1 := by linarith
      exact hsh (Real.exp_injective (by rw [h1, Real.exp_zero]))
    rw [mul_one, div_self hne]

/-- `calculateUnisonGain` is antitone on the reals. -/
theorem calculateUnisonGain_antitone {a b : ℝ} (h : a ≤ b) :
    calculateUnisonGain b ≤ calculateUnisonGain a := by
  unfold calculateUnisonGain
  have hpos : (0 : ℝ) < Real.sqrt (max (a - 1) 1) :=
    Real.sqrt_pos.mpr (lt_of_lt_of_le one_pos (le_max_right _ _))
  have hm : max (a - 1) 1 ≤ max (b - 1) 1 := max_le_max (by linarith) le_rfl
  have hs : Real.sqrt (max (a - 1) 1) ≤ Real.sqrt (max (b - 1) 1) :=
    Real.sqrt_le_sqrt hm
  have : 0.7 / Real.sqrt (max (b - 1) 1) ≤ 0.7 / Real.sqrt (max (a - 1) 1) :=
    div_le_div_of_nonneg_left (by norm_num) hpos hs
  linarith

/-- `calculateUnisonGain` stays strictly above the floor 0.3. -/
theorem calculateUnisonGain_gt (u : ℝ) : (0.3 : ℝ) < calculateUnisonGain u := by
  unfold calculateUnisonGain
  have hpos : (0 : ℝ) < Real.sqrt (max (u - 1) 1) :=
    Real.sqrt_pos.mpr (lt_of_lt_of_le one_pos (le_max_right _ _))
  have : (0 : ℝ) < 0.7 / Real.sqrt (max (u - 1) 1) := by positivity
  linarith

/-- One voice: its pan is the centre. -/
theorem panPosition_one (i : ℕ) : panPosition 1 i = 0 := by
  simp [panPosition]

/-! ### Claim theorems: the envelope curve (C7) -/

/-- C7: the envelope curve array has n = 9 samples with sample `i` equal to
`start + f(i/(n-1), shape) * (end - start)` where `f(t, shape) = t` when
`|shape| < 1e-6` and `(e^(shape*t) - 1) / (e^shape - 1)` otherwise; the 0-to-1
curve starts at exactly 0 and ends at exactly 1 for every shape, and shape 0
yields exactly linear spacing. -/
theorem envelope_curve_contract :
    (∀ a b sh : ℝ, (calculateEnvelopeCurveArray a b sh).length = 9) ∧
    (∀ a b sh : ℝ, ∀ i : ℕ, i < 9 →
      (calculateEnvelopeCurveArray a b sh).getD i 0
        = a + calculateEnvelopeCurve ((i : ℝ) / 8) sh * (b - a)) ∧
    (∀ t sh : ℝ, |sh| < 1 / 1000000 → calculateEnvelopeCurve t sh = t) ∧
    (∀ t sh : ℝ, ¬ |sh| < 1 / 1000000 →
      calculateEnvelopeCurve t sh = (Real.exp (sh * t) - 1) / (Real.exp sh - 1)) ∧
    (∀ sh : ℝ, (calculateEnvelopeCurveArray 0 1 sh).getD 0 0 = 0 ∧
      (calculateEnvelopeCurveArray 0 1 sh).getD 8 0 = 1) ∧
    (∀ a b : ℝ, ∀ i : ℕ, i < 9 →
      (calculateEnvelopeCurveArray a b 0).getD i 0 = a + (i : ℝ) / 8 * (b - a)) := by
  refine ⟨?_, ?_, ?_, ?_, ?_, ?_⟩
  · intro a b sh
    simp [calculateEnvelopeCurveArray]
  · intro a b sh i h
    exact calculateEnvelopeCurveArray_getD a b sh i h
  · intro t sh h
    unfold calculateEnvelopeCurve
    rw [if_pos h]
  · intro t sh h
    unfold calculateEnvelopeCurve
    rw [if_neg h]
  · intro sh
    constructor
    · rw [calculateEnvelopeCurveArray_getD 0 1 sh 0 (by norm_num)]
      norm_num [calculateEnvelopeCurve_zero]
    · rw [calculateEnvelopeCurveArray_getD 0 1 sh 8 (by norm_num)]
      norm_num [calculateEnvelopeCurve_one]
  · intro a b i h
    rw [calculateEnvelopeCurveArray_getD a b 0 i h]
    have hz : calculateEnvelopeCurve ((i : ℝ) / 8) 0 = (i : ℝ) / 8 := by
      unfold calculateEnvelopeCurve
      rw [if_pos (by norm_num)]
    rw [hz]

/-! ### Claim theorems: unison math (C8) -/

/-- C8: the unison loudness compensation equals
`1 - 0.7 + 0.7 / sqrt(max(unison - 1, 1))`, is monotonically non-increasing
in the (integer) unison count, stays strictly above 0.3, and for every odd
unison the per-voice pan positions sum to zero. -/
theorem unison_gain_and_pan_contract :
    (∀ u : ℕ, calculateUnisonGain u
        = 1 - 0.7 + 0.7 / Real.sqrt (max ((u : ℝ) - 1) 1)) ∧
    (∀ u v : ℕ, 1 ≤ u → u ≤ v → calculateUnisonGain v ≤ calculateUnisonGain u) ∧
    (∀ u : ℕ, (0.3 : ℝ) < calculateUnisonGain u) ∧
    (∀ u : ℕ, Odd u → (panPositions u).sum = 0) := by
  refine ⟨fun u => rfl, ?_, fun u => calculateUnisonGain_gt u, ?_⟩
  · intro u v _ huv
    exact calculateUnisonGain_antitone (by exact_mod_cast huv)
  · intro u hu
    by_cases h1 : 1 < u
    · have hu1 : (1 : ℝ) < (u : ℝ) := by exact_mod_cast h1
      have hc : ((u : ℝ) - 1) ≠ 0 := by linarith
      have hform : ∀ i : ℕ, panPosition u i = (i : ℝ) * (2 / ((u : ℝ) - 1)) - 1 := by
        intro i
        simp only [panPosition, if_pos h1]
        ring
      have hS : (∑ i in Finset.range u, (i : ℝ)) = (u : ℝ) * ((u : ℝ) - 1) / 2 := by
        have h2 := Finset.sum_range_id_mul_two u
        have h3 : ((∑ i in Finset.range u, i : ℕ) : ℝ) * 2
            = (u : ℝ) * (((u - 1 : ℕ) : ℝ)) := by exact_mod_cast congrArg Nat.cast h2
        rw [Nat.cast_sub (le_of_lt h1)] at h3
        push_cast at h3
        linarith
      rw [panPositions, list_range_map_sum]
      simp_rw [hform]
      rw [Finset.sum_sub_distrib, ← Finset.sum_mul, Finset.sum_const, Finset.card_range, hS]
      rw [nsmul_eq_mul, mul_one]
      field_simp
    · interval_cases u
      · exact absurd hu (by decide)
      · have hr : List.range 1 = [0] := rfl
        simp [panPositions, hr, panPosition_one]

/-! ### Claim theorems: resonance mapping (C10) -/

theorem QToResonance_resonanceToQ (r : ℝ) : QToResonance (resonanceToQ r) = r := by
  unfold QToResonance resonanceToQ
  ring

theorem resonanceToQ_QToResonance (q : ℝ) : resonanceToQ (QToResonance q) = q := by
  unfold QToResonance resonanceToQ
  ring

/-- C10: `resonanceToQ` and `QToResonance` are exact mutual inverses, so a
normalized resonance written onto the bus by `applyPartialPreset` is read
back exactly by `exportPreset`. -/
theorem resonance_mappings_inverse :
    (∀ r : ℝ, QToResonance (resonanceToQ r) = r) ∧
    (∀ q : ℝ, resonanceToQ (QToResonance q) = q) ∧
    (∀ (s : SynthState) (r : ℝ), ∃ s1 : SynthState,
      applyPartialPreset { filter? := some { resonance? := some r } } s = Except.ok s1 ∧
      s1.settings.filterSettings.resonance = resonanceToQ r ∧
      (exportPreset s1.settings).filter.resonance = r) := by
  refine ⟨QToResonance_resonanceToQ, resonanceToQ_QToResonance, ?_⟩
  · intro s r
    have hval : validatePreset { filter? := some { resonance? := some r } } = none := by
      simp [validatePreset, validateOscillators, validateFilter, validateGlideLfo,
        validateChorus]
    refine ⟨applyPresetFields { filter? := some { resonance? := some r } } s, ?_, ?_, ?_⟩
    · simp [applyPartialPreset, hval]
    · simp [applyPresetFields, applySettings]
    · simp [exportPreset, applyPresetFields, applySettings, QToResonance_resonanceToQ]


/-! ### Claim theorems: validation (C4) -/

theorem optionOrElse_eq_none (a b : Option String) :
    (a <|> b) = none ↔ a = none ∧ b = none := by
  cases a <;> simp

theorem validateEnvelope_eq_none_iff (env : PartialADSR) :
    validateEnvelope env = none ↔
      (0 ≤ env.attack?.getD 0 ∧ 0 ≤ env.decay?.getD 0 ∧
       (0 ≤ env.sustain?.getD 0 ∧ env.sustain?.getD 0 ≤ 1) ∧
       0 ≤ env.release?.getD 0) := by
  unfold validateEnvelope
  split_ifs with h1 h2 h3 h4 <;> simp_all

theorem validateOscillators_eq_none_iff (l : List (Option PartialOsc)) :
    validateOscillators l = none ↔ ∀ o : PartialOsc, some o ∈ l → 1 ≤ o.unison?.getD 1 := by
  induction l with
  | nil => simp [validateOscillators]
  | cons hd tl ih =>
      cases hd with
      | none => simp [validateOscillators, ih]
      | some o =>
          unfold validateOscillators
          split_ifs with h1
          · rw [ih]
            constructor
            · intro hall o2 ho2
              rcases List.mem_cons.mp ho2 with h | h
              · cases Option.some.injEq .. ▸ h
                simpa using h1
              · exact hall o2 h
            · intro hall o2 ho2
              exact hall o2 (List.mem_cons_of_mem _ ho2)
          · constructor
            · intro hfalse
              exact absurd hfalse (by simp)
            · intro hall
              exact absurd (hall o (List.mem_cons_self _ _)) h1

theorem validateFilter_eq_none_iff (f? : Option PartialFilter) :
    validateFilter f? = none ↔
      ((0 ≤ (f?.bind (·.cutoff?)).getD 0 ∧ (f?.bind (·.cutoff?)).getD 0 ≤ 1) ∧
       (0 ≤ (f?.bind (·.envelope?)).getD 0 ∧ (f?.bind (·.envelope?)).getD 0 ≤ 1) ∧
       (0 ≤ (f?.bind (·.keyboard?)).getD 0 ∧ (f?.bind (·.keyboard?)).getD 0 ≤ 1)) := by
  unfold validateFilter
  dsimp only
  split_ifs with h1 h2 h3 <;> simp_all

theorem validateGlideLfo_eq_none_iff (p : PartialPreset) :
    validateGlideLfo p = none ↔
      (0 ≤ p.glide?.getD 0 ∧ 0 ≤ p.lfoFrequency?.getD 0 ∧
       (0 ≤ p.lfoPitch?.getD 0 ∧ p.lfoPitch?.getD 0 ≤ 1)) := by
  unfold validateGlideLfo
  split_ifs with h1 h2 h3 <;> simp_all

theorem validateChorus_eq_none_iff (c? : Option PartialChorus) :
    validateChorus c? = none ↔
      ∀ c : PartialChorus, c? = some c →
        (0 ≤ c.amount?.getD 0 ∧ (c.mode?.getD 0 = 0 ∨ c.mode?.getD 0 = 1)) := by
  cases c? with
  | none => simp [validateChorus]
  | some c =>
      unfold validateChorus
      dsimp only
      split_ifs with h1 h2 <;> simp_all

theorem validatePreset_eq_none_iff (p : PartialPreset) :
    validatePreset p = none ↔
      ((p.envelopes?.bind (·.amplitude?)).elim none validateEnvelope = none ∧
       (p.envelopes?.bind (·.filter?)).elim none validateEnvelope = none ∧
       validateOscillators (p.oscillators?.getD []) = none ∧
       validateFilter p.filter? = none ∧
       validateGlideLfo p = none ∧
       validateChorus (p.fx?.bind (·.chorus?)) = none) := by
  unfold validatePreset
  rw [optionOrElse_eq_none, optionOrElse_eq_none, optionOrElse_eq_none,
    optionOrElse_eq_none, optionOrElse_eq_none]

/-- A violation of the envelope invariants, as listed by the claim, present
in the patch itself. -/
def EnvelopeViolation (e : PartialADSR) : Prop :=
  (∃ x, e.attack? = some x ∧ x < 0) ∨ (∃ x, e.decay? = some x ∧ x < 0) ∨
  (∃ x, e.release? = some x ∧ x < 0) ∨
  (∃ x, e.sustain? = some x ∧ (x < 0 ∨ 1 < x))

/-- A patch violating one of the preset invariants the claim lists: negative
attack/decay/release/glide, sustain / cutoff / filter-envelope depth /
keyboard-tracking depth / lfoPitch outside the unit interval, unison below
1, or a chorus mode other than 0 and 1. -/
def PresetViolation (p : PartialPreset) : Prop :=
  (∃ e, p.envelopes?.bind (·.amplitude?) = some e ∧ EnvelopeViolation e) ∨
  (∃ e, p.envelopes?.bind (·.filter?) = some e ∧ EnvelopeViolation e) ∨
  (∃ l o x, p.oscillators? = some l ∧ some o ∈ l ∧ o.unison? = some x ∧ x < 1) ∨
  (∃ f x, p.filter? = some f ∧
     ((f.cutoff? = some x ∧ (x < 0 ∨ 1 < x)) ∨
      (f.envelope? = some x ∧ (x < 0 ∨ 1 < x)) ∨
      (f.keyboard? = some x ∧ (x < 0 ∨ 1 < x)))) ∨
  (∃ x, p.glide? = some x ∧ x < 0) ∨
  (∃ x, p.lfoPitch? = some x ∧ (x < 0 ∨ 1 < x)) ∨
  (∃ c x, p.fx?.bind (·.chorus?) = some c ∧ c.mode? = some x ∧ x ≠ 0 ∧ x ≠ 1)

theorem envelopeViolation_not_valid {e : PartialADSR} (h : EnvelopeViolation e) :
    validateEnvelope e ≠ none := by
  intro hnone
  rw [validateEnvelope_eq_none_iff] at hnone
  obtain ⟨ha, hd, ⟨hs0, hs1⟩, hr⟩ := hnone
  rcases h with ⟨x, hx, hlt⟩ | ⟨x, hx, hlt⟩ | ⟨x, hx, hlt⟩ | ⟨x, hx, hlt⟩
  · rw [hx] at ha
    simp at ha
    linarith
  · rw [hx] at hd
    simp at hd
    linarith
  · rw [hx] at hr
    simp at hr
    linarith
  · rw [hx] at hs0 hs1
    simp at hs0 hs1
    rcases hlt with hlt | hlt <;> linarith

/-- C4: a patch that violates any of the listed preset invariants makes
`applyPartialPreset` raise the validation error: the result is
`Except.error`, produced before any state field is written (in the source,
`validatePreset` runs to completion before the first mutation, so the live
settings and every bus value are left exactly as they were). -/
theorem applyPartialPreset_error_on_violation (p : PartialPreset) (s : SynthState)
    (hp : PresetViolation p) :
    ∃ msg, applyPartialPreset p s = Except.error msg := by
  have hne : validatePreset p ≠ none := by
    intro hnone
    rw [validatePreset_eq_none_iff] at hnone
    obtain ⟨hamp, hfilt, hosc, hfil, hglfo, hch⟩ := hnone
    rcases hp with ⟨e, he, hv⟩ | ⟨e, he, hv⟩ | ⟨l, o, x, hl, ho, hx, hlt⟩ |
      ⟨f, x, hf, hc⟩ | ⟨x, hx, hlt⟩ | ⟨x, hx, hlt⟩ | ⟨c, x, hc, hx, h0, h1⟩
    · rw [he] at hamp
      simp only [Option.elim] at hamp
      exact envelopeViolation_not_valid hv hamp
    · rw [he] at hfilt
      simp only [Option.elim] at hfilt
      exact envelopeViolation_not_valid hv hfilt
    · rw [hl] at hosc
      have := (validateOscillators_eq_none_iff l).mp hosc o ho
      rw [hx] at this
      simp at this
      linarith
    · rw [validateFilter_eq_none_iff, hf] at hfil
      obtain ⟨⟨hc0, hc1⟩, ⟨he0, he1⟩, ⟨hk0, hk1⟩⟩ := hfil
      rcases hc with ⟨hfx, hout⟩ | ⟨hfx, hout⟩ | ⟨hfx, hout⟩
      · simp [hfx] at hc0 hc1
        rcases hout with hout | hout <;> linarith
      · simp [hfx] at he0 he1
        rcases hout with hout | hout <;> linarith
      · simp [hfx] at hk0 hk1
        rcases hout with hout | hout <;> linarith
    · rw [validateGlideLfo_eq_none_iff] at hglfo
      rw [hx] at hglfo
      simp at hglfo
      linarith [hglfo.1]
    · rw [validateGlideLfo_eq_none_iff] at hglfo
      rw [hx] at hglfo
      simp at hglfo
      rcases hlt with hlt | hlt <;> linarith [hglfo.2.2.1, hglfo.2.2.2]
    · rw [validateChorus_eq_none_iff] at hch
      have := (hch c hc).2
      rw [hx] at this
      simp at this
      tauto
  cases hv : validatePreset p with
  | none => exact absurd hv hne
  | some msg => exact ⟨msg, by simp [applyPartialPreset, hv]⟩

/-- C4 witness: the spec's own example `applyPartialPreset({filter:{cutoff:2}})`
raises a validation error without mutating the initial synth state. -/
theorem applyPartialPreset_error_on_violation_witness :
    ∃ msg, applyPartialPreset { filter? := some { cutoff? := some 2 } } initialState
      = Except.error msg :=
  applyPartialPreset_error_on_violation { filter? := some { cutoff? := some 2 } }
    initialState
    (Or.inr (Or.inr (Or.inr (Or.inl
      ⟨{ cutoff? := some 2 }, 2, rfl, Or.inl ⟨rfl, Or.inr (by norm_num)⟩⟩))))


/-! ### Map lemmas and claim theorems: noteAbort (C9) and Poly voice-stealing (C6) -/

theorem mapGet_eq_none_iff (m : NoteMap) (k : ℤ) :
    mapGet m k = none ↔ ∀ kv ∈ m, kv.1 ≠ k := by
  unfold mapGet
  rw [Option.map_eq_none', List.find?_eq_none]
  simp

theorem mapGet_mapDelete (m : NoteMap) (k : ℤ) : mapGet (mapDelete m k) k = none := by
  rw [mapGet_eq_none_iff]
  intro kv hkv
  have := List.of_mem_filter hkv
  simpa using this

theorem filter_key_mapDelete (m : NoteMap) (k : ℤ) :
    (mapDelete m k).filter (fun kv => kv.1 = k) = [] := by
  unfold mapDelete
  rw [List.filter_filter, List.filter_eq_nil_iff]
  intro kv _
  by_cases h : kv.1 = k <;> simp [h]

theorem filter_key_of_mapGet_none {m : NoteMap} {k : ℤ} (h : mapGet m k = none) :
    m.filter (fun kv => kv.1 = k) = [] := by
  rw [List.filter_eq_nil_iff]
  intro kv hkv
  have := (mapGet_eq_none_iff m k).mp h kv hkv
  simpa using this

theorem mapSet_of_filter_nil {m : NoteMap} {k : ℤ} (v : NoteModel)
    (h : m.filter (fun kv => kv.1 = k) = []) : mapSet m k v = m ++ [(k, v)] := by
  unfold mapSet
  rw [if_neg]
  intro hany
  obtain ⟨kv, hmem, hkv⟩ := List.any_eq_true.mp hany
  have : kv ∈ m.filter (fun kv => kv.1 = k) := List.mem_filter.mpr ⟨hmem, hkv⟩
  rw [h] at this
  exact absurd this (List.not_mem_nil kv)

theorem mapGet_append_singleton {m : NoteMap} {k : ℤ} (v : NoteModel)
    (h : m.filter (fun kv => kv.1 = k) = []) : mapGet (m ++ [(k, v)]) k = some v := by
  unfold mapGet
  rw [List.find?_append]
  have h1 : m.find? (fun kv => kv.1 = k) = none := by
    rw [List.find?_eq_none]
    intro kv hkv
    have := List.filter_eq_nil_iff.mp h kv hkv
    simpa using this
  rw [h1]
  simp

/-- C9: `noteAbort` is unconditionally safe: called on a noteNumber with no
live Note it is a no-op that leaves the state unchanged, and a second call
on the same noteNumber (e.g. after the natural-end cleanup already ran) is
likewise a no-op, since the first call removed the Note from the live set
(and nulled its natural-end callback). -/
theorem noteAbort_noop_and_idempotent (s : SynthState) (n : ℤ) :
    (mapGet s.notes n = none → noteAbort s n = s) ∧
    noteAbort (noteAbort s n) n = noteAbort s n := by
  constructor
  · intro h
    unfold noteAbort
    rw [h]
  · by_cases h : mapGet s.notes n = none
    · have h1 : noteAbort s n = s := by
        unfold noteAbort
        rw [h]
      simp only [h1]
    · obtain ⟨nt, hnt⟩ := Option.ne_none_iff_exists'.mp h
      have h2 : noteAbort s n = { s with notes := mapDelete s.notes n } := by
        unfold noteAbort
        rw [hnt]
      rw [h2]
      have h3 : mapGet (mapDelete s.notes n) n = none := mapGet_mapDelete s.notes n
      unfold noteAbort
      simp only [h3]

theorem filter_key_noteAbort (s : SynthState) (n : ℤ) :
    (noteAbort s n).notes.filter (fun kv => kv.1 = n) = [] := by
  unfold noteAbort
  cases h : mapGet s.notes n with
  | none => exact filter_key_of_mapGet_none h
  | some nt => exact filter_key_mapDelete s.notes n

/-- C6: in Poly mode, `noteOn` aborts any pre-existing Note under the same
noteNumber and registers exactly one fresh Note for it: afterwards the
live-notes table holds exactly one entry keyed by the noteNumber, the
newly created (unreleased, fresh-identity) Note. -/
theorem noteAbort_notes (s : SynthState) (n : ℤ) :
    (noteAbort s n).notes = mapDelete s.notes n := by
  unfold noteAbort
  cases h : mapGet s.notes n with
  | some nt => rfl
  | none =>
      have hall := (mapGet_eq_none_iff s.notes n).mp h
      simp only
      unfold mapDelete
      symm
      rw [List.filter_eq_self]
      intro kv hkv
      simpa using hall kv hkv

/-- C6: in Poly mode, `noteOn` aborts any pre-existing Note under the same
noteNumber and registers exactly one fresh Note for it: afterwards the
live-notes table holds exactly one entry keyed by the noteNumber, the
newly created (unreleased, fresh-identity) Note — never a stack of voices. -/
theorem noteOn_poly_one_note_per_key (s : SynthState) (n : ℤ) (v : ℝ)
    (hmode : s.settings.mode = Mode.Poly) (hv : v ≠ 0) :
    (noteOn s n v).notes.filter (fun kv => kv.1 = n) = [(n, mkNewNote s n)] ∧
    mapGet (noteOn s n v).notes n = some (mkNewNote s n) := by
  have hwk : (withKeyPressed s n).settings.mode = Mode.Poly := hmode
  have hsteal : voiceSteal (withKeyPressed s n) n = noteAbort (withKeyPressed s n) n := by
    unfold voiceSteal
    rw [if_pos hwk]
  have hnotes : (noteOn s n v).notes
      = (noteAbort (withKeyPressed s n) n).notes ++ [(n, mkNewNote s n)] := by
    unfold noteOn
    rw [if_neg hv]
    unfold noteOnCore
    rw [if_neg (by rw [hwk]; simp)]
    unfold noteOnCreate
    simp only [hsteal]
    exact mapSet_of_filter_nil _ (filter_key_noteAbort _ n)
  constructor
  · rw [hnotes, List.filter_append, filter_key_noteAbort]
    simp
  · rw [hnotes]
    exact mapGet_append_singleton _ (filter_key_noteAbort _ n)

/-- C6 witness: pressing key 60 on the freshly constructed (Poly) synth
leaves exactly the one fresh Note for 60 in the table. -/
theorem noteOn_poly_one_note_per_key_witness :
    (noteOn initialState 60 1).notes.filter (fun kv => kv.1 = 60)
      = [(60, mkNewNote initialState 60)] ∧
    mapGet (noteOn initialState 60 1).notes 60 = some (mkNewNote initialState 60) :=
  noteOn_poly_one_note_per_key initialState 60 1 rfl (by norm_num)


/-! ### Claim theorems: legato retune to the same note (C5) -/

/-- The synth straight after construction, switched to Legato mode (what
`applyPartialPreset({mode: Legato})` leaves on a fresh synth). -/
noncomputable def legatoState : SynthState :=
  { initialState with settings := { initialState.settings with mode := Mode.Legato } }

/-- C5 (code transcript): pressing key 60 twice in Legato mode.  The first
press registers one live, unreleased Note for 60.  The second press takes
the legato path and retunes that Note to its own noteNumber; the remap
`notes.set(60, note); notes.delete(previousNoteNumber = 60)` then deletes
the still-sounding Note, leaving the live-notes table empty — instead of
mapping 60 to the preserved Note as the claim states. -/
theorem legato_retune_same_note_loses_note :
    (noteOn legatoState 60 1).notes = [(60, mkNewNote legatoState 60)] ∧
    (mkNewNote legatoState 60).released = false ∧
    (noteOn (noteOn legatoState 60 1) 60 1).notes = [] := by
  have hv : (1 : ℝ) ≠ 0 := by norm_num
  have h1 : noteOn legatoState 60 1 = noteOnCore legatoState 60 := by
    unfold noteOn
    rw [if_neg hv]
  have h2 : noteOn (noteOnCore legatoState 60) 60 1
      = noteOnCore (noteOnCore legatoState 60) 60 := by
    unfold noteOn
    rw [if_neg hv]
  refine ⟨?_, rfl, ?_⟩
  · rw [h1]
    rfl
  · rw [h1, h2]
    rfl

/-! ### Claim theorems: the release-shape slip in noteOff (C3) -/

/-- The default envelopes with the amplitude `releaseShape` changed to 1, so
that it differs from the filter envelope's -5. -/
noncomputable def envC3 : Envelopes :=
  { amplitude := { defaultPreset.envelopes.amplitude with releaseShape := 1 },
    filter := defaultPreset.envelopes.filter }

/-- The envelope curve at its middle sample, shape nonzero. -/
theorem calculateEnvelopeCurve_half (sh : ℝ) (h : ¬ |sh| < 1 / 1000000) :
    calculateEnvelopeCurve (1/2) sh = 1 / (Real.exp (sh / 2) + 1) := by
  unfold calculateEnvelopeCurve
  rw [if_neg h]
  have hsh : sh ≠ 0 := by
    intro h0
    rw [h0] at h
    exact h (by norm_num)
  have he1 : Real.exp (sh / 2) ≠ 1 := by
    intro h1
    apply hsh
    have h2 : sh / 2 = 0 := Real.exp_eq_exp.mp (h1.trans Real.exp_zero.symm)
    linarith
  have hsq : Real.exp sh = Real.exp (sh / 2) * Real.exp (sh / 2) := by
    rw [← Real.exp_add]
    norm_num
  have harg : sh * (1/2) = sh / 2 := by ring
  rw [harg, hsq]
  have hne2 : Real.exp (sh/2) * Real.exp (sh/2) - 1 ≠ 0 := by
    intro h0
    have hfac : (Real.exp (sh/2) - 1) * (Real.exp (sh/2) + 1) = 0 := by
      have hr : (Real.exp (sh/2) - 1) * (Real.exp (sh/2) + 1)
          = Real.exp (sh/2) * Real.exp (sh/2) - 1 := by ring
      rw [hr, h0]
    rcases mul_eq_zero.mp hfac with hx | hx
    · exact he1 (by linarith)
    · have := Real.exp_pos (sh/2)
      linarith
  have hne3 : Real.exp (sh/2) + 1 ≠ 0 := by positivity
  rw [div_eq_div_iff hne2 hne3]
  ring

/-- C3 (code transcript, failing input): with the amplitude releaseShape 1
and the filter releaseShape -5, `noteOff` schedules the amplitude release
curve shaped by the FILTER envelope's releaseShape (line 667 passes
`this.envelopes.filter.releaseShape`), not the amplitude envelope's own —
and the two curves genuinely differ (their middle samples differ).  The
oscillator stop time `now + amplitude.release` is as the claim states. -/
theorem noteOff_amp_release_uses_filter_releaseShape :
    (noteOffSchedule envC3 1 1 0).amp
      = GainAutomation.curve (calculateEnvelopeCurveArray 1 0 (-5)) 0 (0.2 : ℝ) ∧
    envC3.amplitude.releaseShape = 1 ∧
    (noteOffSchedule envC3 1 1 0).stopTime = (0.2 : ℝ) ∧
    calculateEnvelopeCurveArray 1 0 (-5) ≠ calculateEnvelopeCurveArray 1 0 1 := by
  have hrel : (0 : ℝ) < envC3.amplitude.release := by
    show (0 : ℝ) < (0.2 : ℝ)
    norm_num
  refine ⟨?_, rfl, ?_, ?_⟩
  · unfold noteOffSchedule
    rw [if_pos hrel]
    rfl
  · unfold noteOffSchedule
    show (0 : ℝ) + envC3.amplitude.release = (0.2 : ℝ)
    show (0 : ℝ) + (0.2 : ℝ) = (0.2 : ℝ)
    norm_num
  · intro heq
    have h4 := congrArg (fun l : List ℝ => l.getD 4 0) heq
    simp only at h4
    rw [calculateEnvelopeCurveArray_getD 1 0 (-5) 4 (by norm_num),
        calculateEnvelopeCurveArray_getD 1 0 1 4 (by norm_num)] at h4
    have hhalf : ((4 : ℕ) : ℝ) / 8 = 1/2 := by norm_num
    rw [hhalf, calculateEnvelopeCurve_half (-5) (by norm_num),
        calculateEnvelopeCurve_half 1 (by norm_num)] at h4
    have hA : (0 : ℝ) < Real.exp ((-5 : ℝ) / 2) + 1 := by positivity
    have hB : (0 : ℝ) < Real.exp ((1 : ℝ) / 2) + 1 := by positivity
    have h6 : (1 : ℝ) / (Real.exp ((-5 : ℝ)/2) + 1) = 1 / (Real.exp ((1 : ℝ)/2) + 1) := by
      linarith
    rw [div_eq_div_iff hA.ne' hB.ne'] at h6
    have h7 : Real.exp ((-5 : ℝ)/2) = Real.exp ((1 : ℝ)/2) := by linarith
    have h8 := Real.exp_eq_exp.mp h7
    norm_num at h8


/-! ### Claim theorems: applyPreset and the default merge (C2) -/

theorem noteAbort_settings (s : SynthState) (n : ℤ) :
    (noteAbort s n).settings = s.settings := by
  unfold noteAbort
  cases mapGet s.notes n <;> rfl

theorem foldl_noteAbort_settings (l : List ℤ) (s : SynthState) :
    (l.foldl noteAbort s).settings = s.settings := by
  induction l generalizing s with
  | nil => rfl
  | cons hd tl ih => rw [List.foldl_cons, ih, noteAbort_settings]

theorem abortStrayNotes_settings (s : SynthState) :
    (abortStrayNotes s).settings = s.settings :=
  foldl_noteAbort_settings _ _

/-- The settings after `applyPartialPreset`'s mutation phase are exactly the
settings writes; the mode-switch sweep only touches notes. -/
theorem applyPresetFields_settings (p : PartialPreset) (s : SynthState) :
    (applyPresetFields p s).settings = applySettings p s.settings := by
  unfold applyPresetFields
  cases p.mode? with
  | none => rfl
  | some m =>
      dsimp only
      by_cases hm : m ≠ Mode.Poly
      · rw [if_pos hm, abortStrayNotes_settings]
      · rw [if_neg hm]

/-- C2 (amended): `applyPreset(p)` is `applyPartialPreset` over the JS
shallow spread of the (aliased) default preset and `p`.  Top-level fields
absent from `p` — glide, glide_always, mode, lfoFrequency, lfoPitch,
masterVolume, the fx block and the filter block — reset to their factory
defaults, with two exceptions the claim misses.  (1) The spread is SHALLOW:
a nested field inside a top-level object that `p` does provide (for
instance `filter.resonance` when `p.filter` only carries `cutoff`) is NOT
reset — it is applied as a partial patch, leaving the live value in place.
(2) `envelopes` never resets: the default singleton's envelope objects are
aliased to the live ones (line 262), so with `envelopes` absent from `p`
the merge re-applies the LIVE envelope values onto themselves (a self-assign
no-op) instead of restoring factory values. -/
theorem applyPreset_merges_default_shallow (p : PartialPreset) (s : SynthState) :
    applyPreset p s = applyPartialPreset (mergePreset (liveDefaultPreset s.settings) p) s ∧
    ∀ s1 : SynthState, applyPreset p s = Except.ok s1 →
      ((p.envelopes? = none → s1.settings.envelopes = s.settings.envelopes) ∧
       (p.glide? = none → s1.settings.glide = defaultPreset.glide) ∧
       (p.glide_always? = none → s1.settings.glide_always = defaultPreset.glide_always) ∧
       (p.mode? = none → s1.settings.mode = defaultPreset.mode) ∧
       (p.lfoFrequency? = none → s1.settings.lfoFrequency = defaultPreset.lfoFrequency) ∧
       (p.lfoPitch? = none → s1.settings.lfoPitch = defaultPreset.lfoPitch) ∧
       (p.masterVolume? = none →
         s1.settings.masterVolume = defaultPreset.masterVolume ∧
         s1.settings.masterGain = dBToGain defaultPreset.masterVolume) ∧
       (p.fx? = none →
         s1.settings.chorusGain = defaultPreset.fx.chorus.amount ∧
         s1.settings.chorusMode = defaultPreset.fx.chorus.mode ∧
         s1.settings.softClipEnabled = defaultPreset.fx.softClip) ∧
       (p.filter? = none →
         s1.settings.filterSettings.cutoff = defaultPreset.filter.cutoff ∧
         s1.settings.filterSettings.resonance = resonanceToQ defaultPreset.filter.resonance ∧
         s1.settings.filterSettings.envelope = defaultPreset.filter.envelope ∧
         s1.settings.filterSettings.keyboard = defaultPreset.filter.keyboard) ∧
       (∀ f : PartialFilter, p.filter? = some f → f.resonance? = none →
         s1.settings.filterSettings.resonance = s.settings.filterSettings.resonance)) := by
  refine ⟨rfl, ?_⟩
  intro s1 h
  have hs1 : s1 = applyPresetFields (mergePreset (liveDefaultPreset s.settings) p) s := by
    unfold applyPreset applyPartialPreset at h
    cases hv : validatePreset (mergePreset (liveDefaultPreset s.settings) p) with
    | some msg =>
        rw [hv] at h
        exact absurd h (by simp)
    | none =>
        rw [hv] at h
        simpa using h.symm
  have hset : s1.settings
      = applySettings (mergePreset (liveDefaultPreset s.settings) p) s.settings := by
    rw [hs1, applyPresetFields_settings]
  refine ⟨?_, ?_, ?_, ?_, ?_, ?_, ?_, ?_, ?_, ?_⟩
  · intro hnone
    rw [hset]
    simp [applySettings, mergePreset, liveDefaultPreset, hnone, Envelopes.toPartial,
      ADSR.toPartial]
  · intro hnone
    rw [hset]
    simp [applySettings, mergePreset, liveDefaultPreset, hnone]
  · intro hnone
    rw [hset]
    simp [applySettings, mergePreset, liveDefaultPreset, hnone]
  · intro hnone
    rw [hset]
    simp [applySettings, mergePreset, liveDefaultPreset, hnone]
  · intro hnone
    rw [hset]
    simp [applySettings, mergePreset, liveDefaultPreset, hnone]
  · intro hnone
    rw [hset]
    simp [applySettings, mergePreset, liveDefaultPreset, hnone]
  · intro hnone
    rw [hset]
    constructor <;>
      simp [applySettings, mergePreset, liveDefaultPreset, hnone]
  · intro hnone
    rw [hset]
    refine ⟨?_, ?_, ?_⟩ <;>
      simp [applySettings, mergePreset, liveDefaultPreset, hnone, FxPreset.toPartial]
  · intro hnone
    rw [hset]
    refine ⟨?_, ?_, ?_, ?_⟩ <;>
      simp [applySettings, mergePreset, liveDefaultPreset, hnone, FilterPreset.toPartial]
  · intro f hf hres
    rw [hset]
    simp [applySettings, mergePreset, liveDefaultPreset, hf, hres]

/-- A state whose resonance bus has been set to Q = 20, i.e. the result of
`applyPartialPreset({filter: {resonance: 1}})` on a fresh synth
(`resonanceToQ 1 = 20`). -/
noncomputable def resState : SynthState :=
  { initialState with settings := { initialState.settings with
      filterSettings := { initialState.settings.filterSettings with resonance := 20 } } }

/-- The spec's nested-patch example: a partial filter object carrying only
a cutoff. -/
noncomputable def cutoffPatch : PartialPreset :=
  { filter? := some { cutoff? := some 0.5 } }

/-- C2 counterexample: with the live resonance bus at Q = 20,
`applyPreset({filter: {cutoff: 0.5}})` succeeds but leaves the resonance
bus at 20 — the nested field `filter.resonance`, unspecified inside the
patch's partial filter object, is NOT reset to its factory default
(`resonanceToQ 0 = -6`), because the spread `{...defaultPreset, ...patch}`
replaces the whole top-level `filter` object with the patch's partial one. -/
theorem applyPreset_partial_filter_keeps_live_resonance :
    ∃ s1 : SynthState, applyPreset cutoffPatch resState = Except.ok s1 ∧
      s1.settings.filterSettings.cutoff = 0.5 ∧
      s1.settings.filterSettings.resonance = 20 ∧
      resonanceToQ defaultPreset.filter.resonance = -6 ∧
      (20 : ℝ) ≠ -6 := by
  have hval : validatePreset
      (mergePreset (liveDefaultPreset resState.settings) cutoffPatch) = none := by
    norm_num [validatePreset, validateEnvelope, validateOscillators, validateFilter,
      validateGlideLfo, validateChorus, mergePreset, cutoffPatch, Preset.toPartial,
      Envelopes.toPartial, ADSR.toPartial, OscPreset.toPartial, FilterPreset.toPartial,
      FxPreset.toPartial, defaultPreset, liveDefaultPreset, resState, initialState]
  refine ⟨applyPresetFields (mergePreset (liveDefaultPreset resState.settings) cutoffPatch)
    resState, ?_, ?_, ?_, ?_, ?_⟩
  · unfold applyPreset applyPartialPreset
    rw [hval]
  · rw [applyPresetFields_settings]
    simp [applySettings, mergePreset, cutoffPatch]
  · rw [applyPresetFields_settings]
    simp [applySettings, mergePreset, cutoffPatch, resState, initialState]
  · show resonanceToQ 0 = -6
    unfold resonanceToQ
    norm_num
  · norm_num


/-! ### Claim theorems: exportPreset / applyPreset round trip (C1) -/

/-- Per-slot reachable-state invariants: validated unison, a positive
compound-gain bus kept consistent with `gain * calculateUnisonGain unison`,
and a pitch bus consistent with `semitones`/`fine` (established by the
constructor, maintained by every `applyPartialPreset` write). -/
def OscSettingsWF (o : OscillatorSettings) : Prop :=
  1 ≤ o.unison ∧ 0 < o.compound_gain ∧
  o.compound_gain = o.gain * calculateUnisonGain o.unison ∧
  o.pitch = semitonesToMultiplier (o.semitones + o.fine / 100)

def ADSRWF (e : ADSR) : Prop :=
  0 ≤ e.attack ∧ 0 ≤ e.decay ∧ 0 ≤ e.sustain ∧ e.sustain ≤ 1 ∧ 0 ≤ e.release

/-- The reachable-settings invariants: exactly the ranges `validatePreset`
enforces on the way in, plus the bus-consistency facts. -/
def SettingsWF (st : Settings) : Prop :=
  ADSRWF st.envelopes.amplitude ∧ ADSRWF st.envelopes.filter ∧
  (∀ o ∈ st.oscillatorSettings, OscSettingsWF o) ∧
  (0 ≤ st.filterSettings.cutoff ∧ st.filterSettings.cutoff ≤ 1) ∧
  (0 ≤ st.filterSettings.envelope ∧ st.filterSettings.envelope ≤ 1) ∧
  (0 ≤ st.filterSettings.keyboard ∧ st.filterSettings.keyboard ≤ 1) ∧
  0 ≤ st.glide ∧ 0 ≤ st.lfoFrequency ∧
  (0 ≤ st.lfoPitch ∧ st.lfoPitch ≤ 1) ∧
  0 ≤ st.chorusGain ∧ (st.chorusMode = 0 ∨ st.chorusMode = 1) ∧
  st.masterGain = dBToGain st.masterVolume

/-- The shallow spread of the default under a fully-populated partial is
that partial itself. -/
theorem mergePreset_toPartial (d q : Preset) : mergePreset d q.toPartial = q.toPartial := by
  unfold mergePreset Preset.toPartial
  simp

/-- The exported preset always passes its own validation on a well-formed
state. -/
theorem validatePreset_export (st : Settings) (hwf : SettingsWF st) :
    validatePreset (exportPreset st).toPartial = none := by
  obtain ⟨hampWF, hfiltWF, hoscWF, hcut, henv, hkey, hglide, hlfoF, hlfoP, hcg, hcm, hmg⟩ := hwf
  rw [validatePreset_eq_none_iff]
  refine ⟨?_, ?_, ?_, ?_, ?_, ?_⟩
  · simp only [exportPreset, Preset.toPartial, Envelopes.toPartial, Option.bind_eq_bind,
      Option.some_bind, Option.elim]
    rw [validateEnvelope_eq_none_iff]
    simp only [ADSR.toPartial, Option.getD_some]
    exact ⟨hampWF.1, hampWF.2.1, ⟨hampWF.2.2.1, hampWF.2.2.2.1⟩, hampWF.2.2.2.2⟩
  · simp only [exportPreset, Preset.toPartial, Envelopes.toPartial, Option.bind_eq_bind,
      Option.some_bind, Option.elim]
    rw [validateEnvelope_eq_none_iff]
    simp only [ADSR.toPartial, Option.getD_some]
    exact ⟨hfiltWF.1, hfiltWF.2.1, ⟨hfiltWF.2.2.1, hfiltWF.2.2.2.1⟩, hfiltWF.2.2.2.2⟩
  · simp only [exportPreset, Preset.toPartial, Option.getD_some]
    rw [validateOscillators_eq_none_iff]
    intro o ho
    rw [List.mem_map] at ho
    obtain ⟨o1, ho1, ho2⟩ := ho
    rw [List.mem_map] at ho1
    obtain ⟨o0, ho0, rfl⟩ := ho1
    have : o = (exportOsc o0).toPartial := by
      injection ho2 with h
      exact h.symm
    rw [this]
    simp only [OscPreset.toPartial, exportOsc, Option.getD_some]
    exact (hoscWF o0 ho0).1
  · rw [validateFilter_eq_none_iff]
    simp only [exportPreset, Preset.toPartial, FilterPreset.toPartial, Option.bind_eq_bind,
      Option.some_bind, Option.getD_some]
    exact ⟨hcut, henv, hkey⟩
  · rw [validateGlideLfo_eq_none_iff]
    simp only [exportPreset, Preset.toPartial, Option.getD_some]
    exact ⟨hglide, hlfoF, hlfoP⟩
  · rw [validateChorus_eq_none_iff]
    intro c hc
    simp only [exportPreset, Preset.toPartial, FxPreset.toPartial, Option.bind_eq_bind,
      Option.some_bind, Option.some.injEq] at hc
    rw [← hc]
    simp only [Option.getD_some]
    exact ⟨hcg, hcm⟩

/-- Re-applying a slot's own exported entry is the identity when the unison
loudness compensation is 1 (unison 1 or 2). -/
theorem applyOscPatch_export (o : OscillatorSettings) (hwf : OscSettingsWF o)
    (hn : calculateUnisonGain o.unison = 1) :
    applyOscPatch o (exportOsc o).toPartial = o := by
  obtain ⟨hu, hpos, hcg, hpitch⟩ := hwf
  unfold applyOscPatch exportOsc OscPreset.toPartial
  simp only [Option.getD_some, Option.map_some', Option.isSome_some, Bool.or_self, if_true]
  obtain ⟨oOn, og, ocg, osem, ofin, ouni, odet, opit, owav, opwm⟩ := o
  simp only at hpos hcg hpitch hn
  simp only [OscillatorSettings.mk.injEq, and_true, true_and]
  refine ⟨?_, ?_, ?_⟩
  · rw [dBToGain_gainTodB hpos, hcg, hn, mul_one]
  · rw [dBToGain_gainTodB hpos, hn, mul_one]
  · exact hpitch.symm

theorem applyOscList_export (l : List OscillatorSettings)
    (hwf : ∀ o ∈ l, OscSettingsWF o)
    (hn : ∀ o ∈ l, calculateUnisonGain o.unison = 1) :
    applyOscList l (l.map fun o => some (exportOsc o).toPartial) = l := by
  induction l with
  | nil => rfl
  | cons hd tl ih =>
      simp only [List.map_cons]
      unfold applyOscList
      rw [applyOscPatch_export hd (hwf hd (List.mem_cons_self hd tl))
          (hn hd (List.mem_cons_self hd tl))]
      rw [ih (fun o ho => hwf o (List.mem_cons_of_mem hd ho))
          (fun o ho => hn o (List.mem_cons_of_mem hd ho))]

/-- Re-applying the exported settings is the identity on the settings, for
well-formed states whose unison compensation is neutral. -/
theorem applySettings_export (st : Settings) (hwf : SettingsWF st)
    (hn : ∀ o ∈ st.oscillatorSettings, calculateUnisonGain o.unison = 1) :
    applySettings (exportPreset st).toPartial st = st := by
  have hosc : applyOscList st.oscillatorSettings
      ((st.oscillatorSettings.map exportOsc).map fun o => some o.toPartial)
      = st.oscillatorSettings := by
    rw [List.map_map]
    exact applyOscList_export st.oscillatorSettings hwf.2.2.1 hn
  obtain ⟨hampWF, hfiltWF, hoscWF, hcut, henv, hkey, hglide, hlfoF, hlfoP, hcg, hcm, hmg⟩ := hwf
  unfold applySettings exportPreset Preset.toPartial Envelopes.toPartial ADSR.toPartial
    FilterPreset.toPartial FxPreset.toPartial
  simp only [Option.bind_eq_bind, Option.some_bind, Option.elim, Option.getD_some,
    Option.map_some']
  obtain ⟨env, oscs, fs, gl, ga, mo, lf, lp, cg, cm, sc, mv, mg⟩ := st
  simp only at hosc hmg ⊢
  simp only [Settings.mk.injEq, and_true, true_and]
  refine ⟨hosc, ?_, hmg.symm⟩
  obtain ⟨c1, c2, c3, c4⟩ := fs
  simp only [FilterSettings.mk.injEq, and_true, true_and]
  exact resonanceToQ_QToResonance c2

/-- C1 (amended): for every state satisfying the reachable-state invariants
whose oscillators have neutral unison loudness compensation
(`calculateUnisonGain unison = 1`, i.e. unison 1 or 2),
`applyPreset(exportPreset())` succeeds and leaves every setting — envelopes,
oscillator settings, compound-gain and pitch buses, filter buses, glide,
mode, LFO, fx and master volume — exactly unchanged.  (Without the
neutrality condition the round trip multiplies the oscillator gain by the
compensation factor: see the counterexample.) -/
theorem applyPreset_exportPreset_roundtrip (s : SynthState)
    (hwf : SettingsWF s.settings)
    (hn : ∀ o ∈ s.settings.oscillatorSettings, calculateUnisonGain o.unison = 1) :
    ∃ s1 : SynthState,
      applyPreset (exportPreset s.settings).toPartial s = Except.ok s1 ∧
      s1.settings = s.settings := by
  refine ⟨applyPresetFields (exportPreset s.settings).toPartial s, ?_, ?_⟩
  · unfold applyPreset
    rw [mergePreset_toPartial]
    unfold applyPartialPreset
    rw [validatePreset_export s.settings hwf]
  · rw [applyPresetFields_settings]
    exact applySettings_export s.settings hwf hn

theorem calculateUnisonGain_one : calculateUnisonGain 1 = 1 := by
  unfold calculateUnisonGain
  have h : max ((1 : ℝ) - 1) 1 = 1 := by norm_num
  rw [h, Real.sqrt_one]
  norm_num

theorem semitonesToMultiplier_zero : semitonesToMultiplier (0 + 0 / 100) = 1 := by
  unfold semitonesToMultiplier
  norm_num

theorem initialState_osc_wf :
    ∀ o ∈ initialState.settings.oscillatorSettings, OscSettingsWF o := by
  intro o ho
  have hm : o = defaultOscillatorSettings true ∨ o = defaultOscillatorSettings false := by
    simpa [initialState] using ho
  have h1 : ∀ b : Bool, OscSettingsWF (defaultOscillatorSettings b) := by
    intro b
    refine ⟨le_refl 1, by norm_num [defaultOscillatorSettings], ?_, ?_⟩
    · show (1 : ℝ) = 1 * calculateUnisonGain 1
      rw [calculateUnisonGain_one, mul_one]
    · show (1 : ℝ) = semitonesToMultiplier (0 + 0 / 100)
      exact semitonesToMultiplier_zero.symm
  rcases hm with rfl | rfl <;> exact h1 _

theorem initialState_wf : SettingsWF initialState.settings := by
  refine ⟨?_, ?_, initialState_osc_wf, ?_, ?_, ?_, ?_, ?_, ?_, ?_, ?_, rfl⟩
  · show ADSRWF defaultPreset.envelopes.amplitude
    unfold ADSRWF defaultPreset
    norm_num
  · show ADSRWF defaultPreset.envelopes.filter
    unfold ADSRWF defaultPreset
    norm_num
  · show (0 : ℝ) ≤ 1 ∧ (1 : ℝ) ≤ 1
    norm_num
  · show (0 : ℝ) ≤ 0 ∧ (0 : ℝ) ≤ 1
    norm_num
  · show (0 : ℝ) ≤ 0 ∧ (0 : ℝ) ≤ 1
    norm_num
  · show (0 : ℝ) ≤ 0
    norm_num
  · show (0 : ℝ) ≤ 5
    norm_num
  · show (0 : ℝ) ≤ 0 ∧ (0 : ℝ) ≤ 1
    norm_num
  · show (0 : ℝ) ≤ 0
    norm_num
  · show (0 : ℝ) = 0 ∨ (0 : ℝ) = 1
    left
    rfl

/-- C1 amended-claim witness: the round trip at the freshly constructed
synth (both oscillators at unison 1). -/
theorem applyPreset_exportPreset_roundtrip_witness :
    ∃ s1 : SynthState,
      applyPreset (exportPreset initialState.settings).toPartial initialState
        = Except.ok s1 ∧
      s1.settings = initialState.settings :=
  applyPreset_exportPreset_roundtrip initialState initialState_wf
    (by
      intro o ho
      have hm : o = defaultOscillatorSettings true ∨ o = defaultOscillatorSettings false := by
        simpa [initialState] using ho
      rcases hm with rfl | rfl <;> exact calculateUnisonGain_one)

/-- A patch setting the first oscillator's unison to 3 (validated: 3 >= 1). -/
noncomputable def unisonPatch : PartialPreset :=
  { oscillators? := some [some { unison? := some 3 }] }

theorem sqrt_two_ne_one : Real.sqrt 2 ≠ 1 := by
  intro h
  have h2 : Real.sqrt 2 ^ 2 = 1 := by
    rw [h]
    norm_num
  rw [Real.sq_sqrt (by norm_num : (0 : ℝ) ≤ 2)] at h2
  norm_num at h2

theorem calculateUnisonGain_three_ne_one : calculateUnisonGain 3 ≠ 1 := by
  unfold calculateUnisonGain
  have hmax : max ((3 : ℝ) - 1) 1 = 2 := by norm_num
  rw [hmax]
  intro h
  have hs2 : (0 : ℝ) < Real.sqrt 2 := Real.sqrt_pos.mpr (by norm_num)
  have h1 : 0.7 / Real.sqrt 2 = 0.7 := by linarith
  rw [div_eq_iff hs2.ne'] at h1
  have : Real.sqrt 2 = 1 := by linarith
  exact sqrt_two_ne_one this

/-- C1 counterexample: from the fresh synth, set oscillator 0's unison to 3
(a reachable state).  `applyPreset(exportPreset())` then succeeds but does
NOT leave the state unchanged: the exported volume reads the compound-gain
bus (`gain * calculateUnisonGain 3`), so re-importing it sets the
oscillator gain to the compound value — the gain changes from 1 to
`calculateUnisonGain 3 = 0.3 + 0.7/sqrt 2 ≠ 1`. -/
theorem applyPreset_export_not_state_identity :
    ∃ s1 s2 : SynthState,
      applyPartialPreset unisonPatch initialState = Except.ok s1 ∧
      applyPreset (exportPreset s1.settings).toPartial s1 = Except.ok s2 ∧
      s2.settings ≠ s1.settings := by
  have hval1 : validatePreset unisonPatch = none := by
    norm_num [validatePreset, unisonPatch, validateOscillators, validateEnvelope,
      validateFilter, validateGlideLfo, validateChorus]
  have hvalE : validatePreset
      (exportPreset (applyPresetFields unisonPatch initialState).settings).toPartial
      = none := by
    norm_num [validatePreset, validateEnvelope, validateOscillators, validateFilter,
      validateGlideLfo, validateChorus, unisonPatch, Preset.toPartial,
      Envelopes.toPartial, ADSR.toPartial, OscPreset.toPartial, FilterPreset.toPartial,
      FxPreset.toPartial, exportPreset, exportOsc, applyPresetFields, applySettings,
      applyOscList, applyOscPatch, initialState, defaultPreset, defaultOscillatorSettings]
  refine ⟨applyPresetFields unisonPatch initialState,
    applyPresetFields
      (exportPreset (applyPresetFields unisonPatch initialState).settings).toPartial
      (applyPresetFields unisonPatch initialState), ?_, ?_, ?_⟩
  · unfold applyPartialPreset
    rw [hval1]
  · unfold applyPreset
    rw [mergePreset_toPartial]
    unfold applyPartialPreset
    rw [hvalE]
  · intro h
    have hg := congrArg (fun st : Settings => (st.oscillatorSettings.headI).gain) h
    have hL : ((applyPresetFields
        (exportPreset (applyPresetFields unisonPatch initialState).settings).toPartial
        (applyPresetFields unisonPatch initialState)).settings.oscillatorSettings.headI).gain
        = dBToGain (gainTodB (1 * calculateUnisonGain 3)) := rfl
    have hR : ((applyPresetFields unisonPatch initialState).settings.oscillatorSettings.headI).gain
        = 1 := rfl
    dsimp only at hg
    rw [hL, hR] at hg
    have hpos : (0 : ℝ) < 1 * calculateUnisonGain 3 := by
      have := calculateUnisonGain_gt 3
      linarith
    rw [dBToGain_gainTodB hpos, one_mul] at hg
    exact calculateUnisonGain_three_ne_one hg


end SynthJS
